import Mathlib

/-!
Verification of `avatar-blocker.py` against its design specification.

The script watches Mastodon streams, classifies the avatar of each
observed account with an image-classification model, and flags or blocks
accounts
whose avatar is classified as "bad".  We shallowly embed the decision
pipeline:

* Python dicts carrying optional fields become structures with `Option`
  fields (`"k" in d` is `Option.isSome`, `d.get("k", False)` is `getD false`).
* The external collaborators (HTTP avatar fetch, the HuggingFace
  classifier, the Mastodon relationship query) become oracle arguments:
  fallible calls are `Except Unit _`, a `.error` value meaning the call
  raised.
* `cachetools.TTLCache` / `LRUCache` together with the `@cached`
  decorator become explicit association-list cache states threaded
  through the calls; time is an explicit `Nat` clock.
* Functions additionally report which collaborators they invoked
  (`downloaded`, `classified`, `queried` flags), so that "no download
  occurs" style properties are statable.
-/

set_option autoImplicit false

namespace AvatarBlocker

/-- A decoded, normalized avatar image (opaque to the decision logic:
the script only ever passes it to the classifier). -/
structure Image where
  data : Nat
deriving DecidableEq, Repr

/-- An account dict as embedded in a stream event: `id`, `acct`
(display handle) and `avatar_static` are the fields the script reads.
`Option` marks fields that may be absent from the dict. -/
structure Account where
  id : Option Nat
  acct : String
  avatar_static : Option String
deriving DecidableEq, Repr

/-- One entry of the output list of the classifier; the script checks for the
presence of the `score` and `label` keys, so both are `Option`. -/
structure ClsEntry where
  label : Option String
  score : Option Rat
deriving DecidableEq, Repr

/-- A relationship record as returned by `mastodon.account_relationships`;
`on_stream` reads it with `.get("following", False)` and
`.get("followed_by", False)`, so both fields are `Option`. -/
structure Rel where
  following : Option Bool
  followed_by : Option Bool
deriving DecidableEq, Repr

/-- The result of one `requests.get` of an avatar URL: HTTP success flag
and the image the body decodes to (`none` = decode raised). -/
structure HttpResp where
  ok : Bool
  decoded : Option Image
deriving DecidableEq, Repr

/-- Operator configuration read at startup (the globals `bad_categories`
and `minimum_score`). -/
structure Config where
  bad_categories : List String
  minimum_score : Rat
deriving Repr

/-- The dispatcher outcome for one event: do nothing, report ("flag"),
or report and issue `mastodon.account_block`. -/
inductive Action where
  | none
  | flag
  | block
deriving DecidableEq, Repr

/-- `cache_key_acct`: the shared cache key function.  With an `id`
present the key is `hash(account["id"])` (hashing modelled as the
identity); otherwise it falls back to `keys.hashkey` of the whole
account dict. -/
inductive CKey where
  | byId (id : Nat)
  | byAcct (a : Account)
deriving DecidableEq, Repr

def cache_key_acct (a : Account) : CKey :=
  match a.id with
  | some i => .byId i
  | none => .byAcct a

/-- The Python method `str.endswith`, on the character sequence of the string. -/
def endswith (s suf : String) : Bool := List.isSuffixOf suf.data s.data

/-- Body of `download_pfp` (the un-cached function): returns the decoded
image or `None`, paired with whether an HTTP fetch was issued. -/
def download_pfp (account : Account) (resp : HttpResp) : Option Image × Bool :=
  match account.avatar_static with
  | none => (none, false)
  | some _ =>
    if resp.ok then (resp.decoded, true) else (none, true)

/-- The classification loop of `is_account_bad`: for each entry, skip it
when `score` or `label` is missing, skip it when `score < minimum_score`,
and return `True` as soon as a label is in `bad_categories`; `False` when
the list is exhausted. -/
def classify_scan (bad : List String) (minScore : Rat) : List ClsEntry → Bool
  | [] => false
  | c :: rest =>
    match c.score, c.label with
    | some score, some label =>
      if score < minScore then classify_scan bad minScore rest
      else if bad.contains label then true
      else classify_scan bad minScore rest
    | _, _ => classify_scan bad minScore rest

/-- Instrumented variant of `classify_scan` that also counts how many
entries of the list the loop examined before returning. -/
def classify_scan_count (bad : List String) (minScore : Rat) :
    List ClsEntry → Bool × Nat
  | [] => (false, 0)
  | c :: rest =>
    match c.score, c.label with
    | some score, some label =>
      if score < minScore then
        let r := classify_scan_count bad minScore rest
        (r.1, r.2 + 1)
      else if bad.contains label then (true, 1)
      else
        let r := classify_scan_count bad minScore rest
        (r.1, r.2 + 1)
    | _, _ =>
      let r := classify_scan_count bad minScore rest
      (r.1, r.2 + 1)

/-- Specification-side predicate: an entry qualifies as bad when both
keys are present, the score is not strictly below the threshold, and
the label is in the bad set. -/
def qualifies (bad : List String) (minScore : Rat) (c : ClsEntry) : Bool :=
  match c.score, c.label with
  | some s, some l => if s < minScore then false else bad.contains l
  | _, _ => false

/-- Result of one un-cached run of `is_account_bad`: the returned value
(`some true` = bad, `some false` = not bad, `none` = the bare `return`
for a default avatar), plus which collaborators were invoked. -/
structure RunResult where
  verdict : Option Bool
  downloaded : Bool
  classified : Bool
deriving DecidableEq, Repr

/-- Body of `is_account_bad` (the un-cached function).  `resp` is the
oracle for the avatar HTTP fetch and `clsO` the oracle for the
classifier invocation (`.error` = the classifier raised). -/
def is_account_bad_run (cfg : Config) (account : Account) (resp : HttpResp)
    (clsO : Except Unit (List ClsEntry)) : RunResult :=
  match account.avatar_static with
  | none => ⟨some false, false, false⟩
  | some url =>
    if endswith url "/missing.png" then ⟨none, false, false⟩
    else
      let pfp := download_pfp account resp
      match pfp.1 with
      | none => ⟨some false, pfp.2, false⟩
      | some _ =>
        match clsO with
        | .error _ => ⟨some false, pfp.2, true⟩
        | .ok cls => ⟨some (classify_scan cfg.bad_categories cfg.minimum_score cls), pfp.2, true⟩

/-- `relationships = get_relationship(account) or {}` followed by the
list normalization in `on_stream`: `None` and the empty list become the
empty dict, a non-empty list yields its first record. -/
def rel_normalize : Option (List Rel) → Rel
  | some (r :: _) => r
  | _ => ⟨none, none⟩

/-- The decision tail of `on_stream`, given the value returned by
`is_account_bad` (tested for truthiness: only `True` enters the branch)
and the value returned by `get_relationship`. -/
def on_stream_action (verdict : Option Bool) (relv : Option (List Rel))
    (include_following exclude_followers auto_block : Bool) : Action :=
  match verdict with
  | some true =>
    let r := rel_normalize relv
    if !include_following && r.following.getD false then .none
    else if exclude_followers && r.followed_by.getD false then .none
    else if auto_block then .block
    else .flag
  | _ => .none

/-! ### Cache models

`cachetools.LRUCache(maxsize=512)` and `cachetools.TTLCache(maxsize=1024,
ttl=...)` modelled as association lists, most recently used entry first.
A lookup of a present key refreshes its recency; an insert places the
entry at the front and evicts from the tail when the cache is full.
The `@cached` decorator stores whatever the wrapped function returns —
including Python `None` — so the cached value type below is itself an
`Option`, and a stored `none` is a hit, distinct from a missing key. -/

structure LRUState (V : Type) where
  maxsize : Nat
  entries : List (CKey × V)
deriving Repr

def lru_get {V : Type} (st : LRUState V) (k : CKey) : Option V × LRUState V :=
  match st.entries.find? (fun e => e.1 == k) with
  | none => (none, st)
  | some e =>
    (some e.2, ⟨st.maxsize, (k, e.2) :: st.entries.filter (fun e2 => !(e2.1 == k))⟩)

def lru_put {V : Type} (st : LRUState V) (k : CKey) (v : V) : LRUState V :=
  let rest := st.entries.filter (fun e => !(e.1 == k))
  ⟨st.maxsize, (k, v) :: rest.take (st.maxsize - 1)⟩

/-- A TTL cache entry also records its expiry instant (insertion time
plus the `ttl` of the cache); a lookup at an instant not before the expiry is
a miss, exactly as `cachetools.TTLCache` treats expired entries. -/
structure TTLState (V : Type) where
  maxsize : Nat
  ttl : Nat
  entries : List (CKey × V × Nat)
deriving Repr

def ttl_get {V : Type} (st : TTLState V) (now : Nat) (k : CKey) : Option V :=
  match st.entries.find? (fun e => e.1 == k) with
  | some e => if now < e.2.2 then some e.2.1 else none
  | none => none

def ttl_put {V : Type} (st : TTLState V) (now : Nat) (k : CKey) (v : V) : TTLState V :=
  let rest := st.entries.filter (fun e => !(e.1 == k))
  ⟨st.maxsize, st.ttl, (k, v, now + st.ttl) :: rest.take (st.maxsize - 1)⟩

/-! ### The cached collaborator wrappers -/

/-- Body of `get_relationship` (the un-cached function): returns the
relationship list, or `None` when `mastodon.account_relationships`
raised (the `except` branch falls off the function with a bare
`return`). -/
def get_relationship (relO : Except Unit (List Rel)) : Option (List Rel) :=
  match relO with
  | .ok r => some r
  | .error _ => none

/-- Result of one call of the TTL-cached `get_relationship`: the value,
the cache state afterwards, and whether the body (and hence the
Mastodon relationship query) ran. -/
structure RelResolve where
  value : Option (List Rel)
  state : TTLState (Option (List Rel))
  queried : Bool
deriving Repr

/-- `get_relationship` as wrapped by
`@cached(cache=TTLCache(maxsize=1024, ttl=relationship_cache_ttl * 60),
key=cache_key_acct)`: on a non-expired hit the cached value is returned
with no query; on a miss the body runs and its return value — the
failure `None` included — is stored until `now + ttl`. -/
def get_relationship_cached (st : TTLState (Option (List Rel))) (now : Nat)
    (account : Account) (relO : Except Unit (List Rel)) : RelResolve :=
  match ttl_get st now (cache_key_acct account) with
  | some v => ⟨v, st, false⟩
  | none =>
    let v := get_relationship relO
    ⟨v, ttl_put st now (cache_key_acct account) v, true⟩

/-- Result of one call of the LRU-cached `is_account_bad`. -/
structure JudgeResult where
  verdict : Option Bool
  state : LRUState (Option Bool)
  bodyCalled : Bool
  downloaded : Bool
  classified : Bool
deriving Repr

/-- `is_account_bad` as wrapped by `@cached(cache=LRUCache(maxsize=512),
key=cache_key_acct)`: a hit returns the stored verdict (refreshing its
recency) without running the body, so without any download or
classifier invocation; a miss runs the body and stores its return
value, `None` included. -/
def is_account_bad_cached (cfg : Config) (st : LRUState (Option Bool))
    (account : Account) (resp : HttpResp) (clsO : Except Unit (List ClsEntry)) :
    JudgeResult :=
  match lru_get st (cache_key_acct account) with
  | (some v, st2) => ⟨v, st2, false, false, false⟩
  | (none, st2) =>
    let r := is_account_bad_run cfg account resp clsO
    ⟨r.verdict, lru_put st2 (cache_key_acct account) r.verdict, true, r.downloaded, r.classified⟩

/-! ### Module-level startup -/

/-- The authenticated identity returned by `mastodon.me()`. -/
structure Me where
  acct : String
deriving DecidableEq, Repr

inductive StartupResult where
  | terminated
  | listening (acct : String)
deriving DecidableEq, Repr

/-- The module-level startup block.  `Mastodon(...)` and
`mastodon.me()` run inside `try`; the `except` branch only logs, but it
leaves the name `me` unbound, so the unconditional `me.acct` on the next
line raises an uncatched `NameError` and the interpreter terminates
before any stream listener is registered.  `clientO` models the client
construction, `meO` the `mastodon.me()` call. -/
def startup (clientO : Except Unit Unit) (meO : Except Unit Me) : StartupResult :=
  let me : Option Me :=
    match clientO with
    | .error _ => none
    | .ok _ =>
      match meO with
      | .error _ => none
      | .ok m => some m
  match me with
  | none => .terminated
  | some m => .listening m.acct

/-! ### Concurrent judgments

The streams deliver events on independent threads, and the `cachetools`
decorator `@cached` was given no `lock=` argument, so its wrapper is the
bare check / compute / store sequence: look the key up, on a miss call
the wrapped function, then store the result.  We model two threads
judging the same account as a small state machine; a schedule is a list
of Booleans saying which thread takes the next atomic step. -/

inductive TState where
  | start
  | mid
  | computed (v : Option Bool)
  | doneHit (v : Option Bool)
  | doneRun (v : Option Bool)
deriving DecidableEq, Repr

structure Sys where
  cache : LRUState (Option Bool)
  t1 : TState
  t2 : TState
  invocations : Nat
deriving Repr

/-- One atomic step of a thread running the cached `is_account_bad` on
`account`: `start` performs the cache lookup (`doneHit` on a hit, `mid`
on a miss), `mid` runs the body — counting one classifier invocation
when the body reaches the classifier — and `computed` stores the result. -/
def thread_step (cfg : Config) (account : Account) (resp : HttpResp)
    (clsO : Except Unit (List ClsEntry)) (cache : LRUState (Option Bool)) :
    TState → TState × LRUState (Option Bool) × Nat
  | .start =>
    match lru_get cache (cache_key_acct account) with
    | (some v, c2) => (.doneHit v, c2, 0)
    | (none, c2) => (.mid, c2, 0)
  | .mid =>
    let r := is_account_bad_run cfg account resp clsO
    (.computed r.verdict, cache, if r.classified then 1 else 0)
  | .computed v => (.doneRun v, lru_put cache (cache_key_acct account) v, 0)
  | .doneHit v => (.doneHit v, cache, 0)
  | .doneRun v => (.doneRun v, cache, 0)

def sys_step (cfg : Config) (account : Account) (resp : HttpResp)
    (clsO : Except Unit (List ClsEntry)) (s : Sys) (who : Bool) : Sys :=
  if who then
    let r := thread_step cfg account resp clsO s.cache s.t1
    ⟨r.2.1, r.1, s.t2, s.invocations + r.2.2⟩
  else
    let r := thread_step cfg account resp clsO s.cache s.t2
    ⟨r.2.1, s.t1, r.1, s.invocations + r.2.2⟩

def sys_run (cfg : Config) (account : Account) (resp : HttpResp)
    (clsO : Except Unit (List ClsEntry)) (s : Sys) : List Bool → Sys
  | [] => s
  | w :: ws => sys_run cfg account resp clsO (sys_step cfg account resp clsO s w) ws

/-- Whether a thread has finished its judgment. -/
def tdone : TState → Bool
  | .doneHit _ => true
  | .doneRun _ => true
  | _ => false

/-- How many body invocations a thread has performed so far (a thread
passes through `computed` exactly when it ran the body). -/
def tinv : TState → Nat
  | .computed _ => 1
  | .doneRun _ => 1
  | _ => 0

/-- The initial system: both threads about to judge, the verdict cache
empty (the account was never judged before), no invocations yet. -/
def sys_init : Sys := ⟨⟨512, []⟩, .start, .start, 0⟩

/-- Exchange the two threads (the system is symmetric in them). -/
def Sys.swap (s : Sys) : Sys := ⟨s.cache, s.t2, s.t1, s.invocations⟩

/-- Whether the cache holds an entry for `k`. -/
def cache_has {V : Type} (st : LRUState V) (k : CKey) : Bool :=
  (st.entries.find? (fun e => e.1 == k)).isSome

/-- Invariant of the two-thread system judging the account keyed `k`:
the invocation counter equals the number of threads that ran the body,
and once the key is cached — or any thread has finished — at least one
body run happened. -/
def SysInv (s : Sys) (k : CKey) : Prop :=
  s.invocations = tinv s.t1 + tinv s.t2 ∧
  (cache_has s.cache k = true → 1 ≤ s.invocations) ∧
  (tdone s.t1 = true → 1 ≤ s.invocations) ∧
  (tdone s.t2 = true → 1 ≤ s.invocations)

/-! ### Sample concrete data (used by witnesses and counterexamples) -/

/-- An account with a real (non-placeholder) avatar. -/
def acctA : Account := ⟨some 1, "alice", some "https://social.example/avatar.png"⟩

/-- An account whose avatar URL is the platform placeholder. -/
def acctPlaceholder : Account := ⟨some 2, "bob", some "https://social.example/missing.png"⟩

/-- An account dict lacking the `avatar_static` field. -/
def acctNoAvatar : Account := ⟨some 3, "carol", none⟩

/-- A successful avatar fetch that decodes. -/
def respOk : HttpResp := ⟨true, some ⟨7⟩⟩

/-- Bad-label set `{"bad"}` with an integral threshold, so that every
comparison evaluates by kernel reduction. -/
def cfgS : Config := ⟨["bad"], 1⟩

/-- A classifier result with one qualifying bad entry. -/
def clsBad : Except Unit (List ClsEntry) := .ok [⟨some "bad", some 2⟩]

/-! ### Cache lemmas -/

theorem find_cons_self {V : Type} (k : CKey) (v : V) (l : List (CKey × V)) :
    ((k, v) :: l).find? (fun e => e.1 == k) = some (k, v) := by
  simp [List.find?]

theorem lru_get_put_hit {V : Type} (st : LRUState V) (k : CKey) (v : V) :
    (lru_get (lru_put st k v) k).1 = some v := by
  simp [lru_get, lru_put, List.find?]

theorem lru_get_miss_state {V : Type} (st : LRUState V) (k : CKey) (st2 : LRUState V)
    (h : lru_get st k = (none, st2)) : st2 = st := by
  unfold lru_get at h
  cases hf : st.entries.find? (fun e => e.1 == k) with
  | none => rw [hf] at h; exact (Prod.mk.injEq _ _ _ _ ▸ h).2.symm ▸ rfl
  | some e => rw [hf] at h; simp at h

theorem lru_get_snd_hit {V : Type} (st : LRUState V) (k : CKey) (v : V) (st2 : LRUState V)
    (h : lru_get st k = (some v, st2)) : (lru_get st2 k).1 = some v := by
  unfold lru_get at h
  cases hf : st.entries.find? (fun e => e.1 == k) with
  | none => rw [hf] at h; simp at h
  | some e =>
    rw [hf] at h
    have h1 : e.2 = v := by
      have := congrArg Prod.fst h
      simpa using this
    have h2 : st2 = ⟨st.maxsize, (k, e.2) :: st.entries.filter (fun e2 => !(e2.1 == k))⟩ := by
      have := congrArg Prod.snd h
      simpa using this.symm
    subst h2
    simp [lru_get, List.find?, h1]

theorem cache_has_of_get_hit {V : Type} (st : LRUState V) (k : CKey) (v : V)
    (st2 : LRUState V) (h : lru_get st k = (some v, st2)) : cache_has st k = true := by
  unfold lru_get at h
  cases hf : st.entries.find? (fun e => e.1 == k) with
  | none => rw [hf] at h; simp at h
  | some e => simp [cache_has, hf]

theorem cache_has_get_hit_state {V : Type} (st : LRUState V) (k : CKey) (v : V)
    (st2 : LRUState V) (h : lru_get st k = (some v, st2)) : cache_has st2 k = true := by
  unfold lru_get at h
  cases hf : st.entries.find? (fun e => e.1 == k) with
  | none => rw [hf] at h; simp at h
  | some e =>
    rw [hf] at h
    have h2 : st2 = ⟨st.maxsize, (k, e.2) :: st.entries.filter (fun e2 => !(e2.1 == k))⟩ := by
      have := congrArg Prod.snd h
      simpa using this.symm
    subst h2
    simp [cache_has, List.find?]

theorem cache_has_put {V : Type} (st : LRUState V) (k : CKey) (v : V) :
    cache_has (lru_put st k v) k = true := by
  simp [cache_has, lru_put, List.find?]

theorem ttl_get_put {V : Type} (st : TTLState V) (now t2 : Nat) (k : CKey) (v : V)
    (h : t2 < now + st.ttl) : ttl_get (ttl_put st now k v) t2 k = some v := by
  simp [ttl_get, ttl_put, List.find?, h]

theorem lru_get_miss_of_fst_none {V : Type} (st : LRUState V) (k : CKey)
    (h : (lru_get st k).1 = none) : lru_get st k = (none, st) := by
  unfold lru_get at h ⊢
  cases hf : st.entries.find? (fun e => e.1 == k) with
  | none => rfl
  | some e => rw [hf] at h; simp at h

/-! ### Characterizations of the cached `is_account_bad` wrapper -/

theorem is_account_bad_cached_hit (cfg : Config) (st : LRUState (Option Bool))
    (account : Account) (resp : HttpResp) (clsO : Except Unit (List ClsEntry))
    (v : Option Bool) (st2 : LRUState (Option Bool))
    (h : lru_get st (cache_key_acct account) = (some v, st2)) :
    is_account_bad_cached cfg st account resp clsO = ⟨v, st2, false, false, false⟩ := by
  unfold is_account_bad_cached
  rw [h]


theorem is_account_bad_cached_hit_fst (cfg : Config) (st : LRUState (Option Bool))
    (account : Account) (resp : HttpResp) (clsO : Except Unit (List ClsEntry))
    (v : Option Bool) (h : (lru_get st (cache_key_acct account)).1 = some v) :
    (is_account_bad_cached cfg st account resp clsO).verdict = v ∧
    (is_account_bad_cached cfg st account resp clsO).bodyCalled = false ∧
    (is_account_bad_cached cfg st account resp clsO).downloaded = false ∧
    (is_account_bad_cached cfg st account resp clsO).classified = false := by
  cases hg : lru_get st (cache_key_acct account) with
  | mk fst snd =>
    rw [hg] at h
    simp only at h
    subst h
    rw [is_account_bad_cached_hit cfg st account resp clsO v snd hg]
    exact ⟨rfl, rfl, rfl, rfl⟩

theorem is_account_bad_cached_miss (cfg : Config) (st : LRUState (Option Bool))
    (account : Account) (resp : HttpResp) (clsO : Except Unit (List ClsEntry))
    (h : (lru_get st (cache_key_acct account)).1 = none) :
    is_account_bad_cached cfg st account resp clsO =
      ⟨(is_account_bad_run cfg account resp clsO).verdict,
       lru_put st (cache_key_acct account) (is_account_bad_run cfg account resp clsO).verdict,
       true, (is_account_bad_run cfg account resp clsO).downloaded,
       (is_account_bad_run cfg account resp clsO).classified⟩ := by
  have hg := lru_get_miss_of_fst_none st (cache_key_acct account) h
  unfold is_account_bad_cached
  rw [hg]

/-! ### Lemmas about the classification loop -/

theorem classify_scan_eq_any (bad : List String) (m : Rat) (cls : List ClsEntry) :
    classify_scan bad m cls = cls.any (qualifies bad m) := by
  induction cls with
  | nil => rfl
  | cons c rest ih =>
    rcases c with ⟨lab, sc⟩
    cases sc with
    | none => simp [classify_scan, qualifies, ih]
    | some s =>
      cases lab with
      | none => simp [classify_scan, qualifies, ih]
      | some l =>
        by_cases hlt : s < m
        · simp [classify_scan, qualifies, hlt, ih]
        · by_cases hc : l ∈ bad
          · simp [classify_scan, qualifies, hlt, hc, ih]
          · simp [classify_scan, qualifies, hlt, hc, ih]

theorem classify_scan_count_fst (bad : List String) (m : Rat) (cls : List ClsEntry) :
    (classify_scan_count bad m cls).1 = classify_scan bad m cls := by
  induction cls with
  | nil => rfl
  | cons c rest ih =>
    rcases c with ⟨lab, sc⟩
    cases sc with
    | none => simp [classify_scan, classify_scan_count, ih]
    | some s =>
      cases lab with
      | none => simp [classify_scan, classify_scan_count, ih]
      | some l =>
        by_cases hlt : s < m
        · simp [classify_scan, classify_scan_count, hlt, ih]
        · by_cases hc : l ∈ bad
          · simp [classify_scan, classify_scan_count, hlt, hc, ih]
          · simp [classify_scan, classify_scan_count, hlt, hc, ih]

theorem classify_scan_count_cons_skip (bad : List String) (m : Rat) (c : ClsEntry)
    (rest : List ClsEntry) (h : qualifies bad m c = false) :
    classify_scan_count bad m (c :: rest) =
      ((classify_scan_count bad m rest).1, (classify_scan_count bad m rest).2 + 1) := by
  rcases c with ⟨lab, sc⟩
  cases sc with
  | none => simp [classify_scan_count]
  | some s =>
    cases lab with
    | none => simp [classify_scan_count]
    | some l =>
      by_cases hlt : s < m
      · simp [classify_scan_count, hlt]
      · have hc : ¬ l ∈ bad := by
          intro hmem
          rw [show qualifies bad m ⟨some l, some s⟩ =
            (if s < m then false else bad.contains l) from rfl, if_neg hlt] at h
          simp [hmem] at h
        simp [classify_scan_count, hlt, hc]

theorem classify_scan_count_cons_hit (bad : List String) (m : Rat) (c : ClsEntry)
    (rest : List ClsEntry) (h : qualifies bad m c = true) :
    classify_scan_count bad m (c :: rest) = (true, 1) := by
  rcases c with ⟨lab, sc⟩
  cases sc with
  | none => simp [qualifies] at h
  | some s =>
    cases lab with
    | none => simp [qualifies] at h
    | some l =>
      rw [show qualifies bad m ⟨some l, some s⟩ =
        (if s < m then false else bad.contains l) from rfl] at h
      by_cases hlt : s < m
      · rw [if_pos hlt] at h; exact absurd h (by simp)
      · rw [if_neg hlt] at h
        have hc : l ∈ bad := by simpa using h
        simp [classify_scan_count, hlt, hc]

theorem classify_scan_count_append_skip (bad : List String) (m : Rat)
    (pre rest : List ClsEntry) (h : ∀ c ∈ pre, qualifies bad m c = false) :
    classify_scan_count bad m (pre ++ rest) =
      ((classify_scan_count bad m rest).1, (classify_scan_count bad m rest).2 + pre.length) := by
  induction pre with
  | nil => simp
  | cons c pre2 ih =>
    have hc := h c (List.mem_cons_self c pre2)
    rw [List.cons_append, classify_scan_count_cons_skip bad m c (pre2 ++ rest) hc,
      ih (fun x hx => h x (List.mem_cons_of_mem c hx))]
    simp [Nat.add_assoc]

/-! ### A verdict other than `True` never acts -/

theorem on_stream_action_of_ne_true (v : Option Bool) (h : v ≠ some true)
    (relv : Option (List Rel)) (i e a : Bool) :
    on_stream_action v relv i e a = Action.none := by
  match v with
  | some true => exact absurd rfl h
  | some false => rfl
  | none => rfl

theorem is_account_bad_run_error_not_bad (cfg : Config) (account : Account)
    (resp : HttpResp) :
    ((is_account_bad_run cfg account resp (.error ())).classified = true →
      (is_account_bad_run cfg account resp (.error ())).verdict = some false) ∧
    (is_account_bad_run cfg account resp (.error ())).verdict ≠ some true := by
  unfold is_account_bad_run
  cases hav : account.avatar_static with
  | none => simp
  | some url =>
    by_cases hp : endswith url "/missing.png" = true
    · simp [hp]
    · cases hdl : download_pfp account resp with
      | mk p1 p2 =>
        cases p1 <;> simp [hp, hdl]

/-! ### Claim theorems -/

/-- C2: if the classifier invocation raises, `is_account_bad` returns
`False` (not bad), and consequently `on_stream` never reaches the block
branch for that lookup, whatever the relationship facts and flags —
auto-block included. -/
theorem C2_classifier_failure_fail_open (cfg : Config) (account : Account)
    (resp : HttpResp) :
    ((is_account_bad_run cfg account resp (.error ())).classified = true →
      (is_account_bad_run cfg account resp (.error ())).verdict = some false) ∧
    ∀ (relv : Option (List Rel)) (i e a : Bool),
      on_stream_action (is_account_bad_run cfg account resp (.error ())).verdict
        relv i e a = Action.none := by
  obtain ⟨h1, h2⟩ := is_account_bad_run_error_not_bad cfg account resp
  exact ⟨h1, fun relv i e a => on_stream_action_of_ne_true _ h2 relv i e a⟩

theorem C2_witness :
    (is_account_bad_run cfgS acctA respOk (Except.error ())).verdict = some false :=
  (C2_classifier_failure_fail_open cfgS acctA respOk).1 (by decide)

/-- C3: for a bad verdict the dispatcher decision is `none` when
`include_following` is unset and the relationship says we follow them;
otherwise `none` when `exclude_followers` is set and they follow us;
otherwise the account is flagged, escalated to a block exactly when
`auto_block` is set. -/
theorem C3_policy_decision_cascade (relv : Option (List Rel)) (i e a : Bool) :
    on_stream_action (some true) relv i e a =
      (if i = false ∧ (rel_normalize relv).following.getD false = true then
        Action.none
       else if e = true ∧ (rel_normalize relv).followed_by.getD false = true then
        Action.none
       else if a = true then Action.block
       else Action.flag) := by
  cases i <;> cases e <;> cases a <;>
    cases hf : (rel_normalize relv).following.getD false <;>
    cases hfb : (rel_normalize relv).followed_by.getD false <;>
    simp [on_stream_action, hf, hfb]

/-- C4: the classification loop returns `True` iff some entry has both
keys, a score not strictly below the threshold, and a label in the bad
set; the instrumented loop agrees with the plain one; the first
qualifying entry decides with exactly the entries up to it examined;
and on `[(label: bad, score: 0.9)]` with bad-set containing only `bad`
the verdict is bad at threshold 0.75 and not bad at threshold 0.95. -/
theorem C4_classification_policy :
    (∀ (bad : List String) (m : Rat) (cls : List ClsEntry),
      classify_scan bad m cls = true ↔ ∃ c ∈ cls, qualifies bad m c = true) ∧
    (∀ (bad : List String) (m : Rat) (cls : List ClsEntry),
      (classify_scan_count bad m cls).1 = classify_scan bad m cls) ∧
    (∀ (bad : List String) (m : Rat) (pre : List ClsEntry) (c : ClsEntry)
        (post : List ClsEntry),
      (∀ c2 ∈ pre, qualifies bad m c2 = false) → qualifies bad m c = true →
      classify_scan_count bad m (pre ++ c :: post) = (true, pre.length + 1)) ∧
    classify_scan ["bad"] (3/4) [⟨some "bad", some (9/10)⟩] = true ∧
    classify_scan ["bad"] (19/20) [⟨some "bad", some (9/10)⟩] = false := by
  refine ⟨?_, ?_, ?_, ?_, ?_⟩
  · intro bad m cls
    rw [classify_scan_eq_any]
    simp [List.any_eq_true]
  · exact classify_scan_count_fst
  · intro bad m pre c post hpre hc
    rw [classify_scan_count_append_skip bad m pre (c :: post) hpre,
      classify_scan_count_cons_hit bad m c post hc]
    simp [Nat.add_comm]
  · simp [classify_scan]
    norm_num
  · simp [classify_scan]
    norm_num

theorem C4_witness :
    classify_scan_count ["bad"] 1
      ([⟨none, none⟩] ++ (⟨some "bad", some 2⟩ : ClsEntry) :: [⟨some "x", some 5⟩]) =
      (true, 2) :=
  C4_classification_policy.2.2.1 ["bad"] 1 [⟨none, none⟩] ⟨some "bad", some 2⟩
    [⟨some "x", some 5⟩] (by decide) (by decide)

/-- C9: an account dict with no `avatar_static` field at all yields the
`False` (not bad) verdict — not the `None` sentinel — with no avatar
download and no classifier invocation; `download_pfp` likewise returns
`None` for it without touching the network. -/
theorem C9_missing_avatar_not_bad (cfg : Config) (account : Account)
    (resp : HttpResp) (clsO : Except Unit (List ClsEntry))
    (h : account.avatar_static = none) :
    is_account_bad_run cfg account resp clsO = ⟨some false, false, false⟩ ∧
    ∀ resp2 : HttpResp, download_pfp account resp2 = (none, false) := by
  constructor
  · unfold is_account_bad_run
    rw [h]
  · intro resp2
    unfold download_pfp
    rw [h]

theorem C9_witness :
    is_account_bad_run cfgS acctNoAvatar respOk clsBad = ⟨some false, false, false⟩ :=
  (C9_missing_avatar_not_bad cfgS acctNoAvatar respOk clsBad rfl).1

/-- C10: a relationship lookup yielding `None` or an empty record list
normalizes to the empty dict, whose `following` / `followed_by` facts
default to false, so a bad verdict proceeds to flag — escalated to
block exactly when `auto_block` is set — regardless of the
`include_following` / `exclude_followers` flags. -/
theorem C10_unknown_relationship_defaults (i e a : Bool) :
    on_stream_action (some true) none i e a =
      (if a = true then Action.block else Action.flag) ∧
    on_stream_action (some true) (some []) i e a =
      (if a = true then Action.block else Action.flag) := by
  cases a <;> simp [on_stream_action, rel_normalize]

/-- C1 counterexample: with an empty relationship cache (TTL 360
minutes) and a failing relationship query at time 0, the resolver
returns `None` ("unknown") — but that failure is stored, so the next
observation of the same identity one minute later performs no fresh
query, contradicting the claim that the failure is not cached. -/
theorem C1_counterexample :
    (get_relationship_cached ⟨1024, 21600, []⟩ 0 acctA (.error ())).value = none ∧
    (get_relationship_cached ⟨1024, 21600, []⟩ 0 acctA (.error ())).queried = true ∧
    (get_relationship_cached
      (get_relationship_cached ⟨1024, 21600, []⟩ 0 acctA (.error ())).state
      60 acctA (.ok [⟨some true, some true⟩])).queried = false ∧
    (get_relationship_cached
      (get_relationship_cached ⟨1024, 21600, []⟩ 0 acctA (.error ())).state
      60 acctA (.ok [⟨some true, some true⟩])).value = none := by
  decide

/-- C1 (amended): on a cache miss, a failing relationship query makes
`get_relationship` return `None` ("unknown"), and that `None` IS stored
in the relationship cache under the full relationship TTL, like a
success: every observation of the same identity before the TTL expires
returns the cached `None` and issues no fresh query. -/
theorem C1_amended_failure_cached (st : TTLState (Option (List Rel))) (now : Nat)
    (account : Account)
    (hmiss : ttl_get st now (cache_key_acct account) = none) :
    (get_relationship_cached st now account (.error ())).value = none ∧
    (get_relationship_cached st now account (.error ())).queried = true ∧
    ∀ (t2 : Nat) (relO2 : Except Unit (List Rel)), t2 < now + st.ttl →
      (get_relationship_cached
        (get_relationship_cached st now account (.error ())).state t2 account
        relO2).value = none ∧
      (get_relationship_cached
        (get_relationship_cached st now account (.error ())).state t2 account
        relO2).queried = false := by
  have h1 : get_relationship_cached st now account (.error ()) =
      ⟨none, ttl_put st now (cache_key_acct account) none, true⟩ := by
    unfold get_relationship_cached
    rw [hmiss]
    rfl
  have hstate : (get_relationship_cached st now account (.error ())).state =
      ttl_put st now (cache_key_acct account) none := by rw [h1]
  refine ⟨by rw [h1], by rw [h1], ?_⟩
  intro t2 relO2 ht
  have h2 : ttl_get (ttl_put st now (cache_key_acct account) none) t2
      (cache_key_acct account) = some none :=
    ttl_get_put st now t2 (cache_key_acct account) none ht
  rw [hstate]
  constructor
  · unfold get_relationship_cached
    rw [h2]
  · unfold get_relationship_cached
    rw [h2]

theorem C1_amended_witness :
    (get_relationship_cached
      (get_relationship_cached ⟨1024, 21600, []⟩ 0 acctA (.error ())).state
      60 acctA (.ok [])).queried = false :=
  ((C1_amended_failure_cached ⟨1024, 21600, []⟩ 0 acctA (by decide)).2.2 60 (.ok [])
    (by decide)).2

/-- C5: a placeholder-avatar account (URL ending in `/missing.png`)
judged on a cache miss yields the `None` sentinel with no download and
no classifier invocation, and the sentinel is stored in the verdict
cache, so every subsequent judgment of the account is a pure cache hit
returning the same sentinel with no re-probing. -/
theorem C5_placeholder_indeterminate_cached (cfg : Config)
    (st : LRUState (Option Bool)) (account : Account) (resp : HttpResp)
    (clsO : Except Unit (List ClsEntry)) (url : String)
    (hav : account.avatar_static = some url)
    (hph : endswith url "/missing.png" = true)
    (hmiss : (lru_get st (cache_key_acct account)).1 = none) :
    (is_account_bad_cached cfg st account resp clsO).verdict = none ∧
    (is_account_bad_cached cfg st account resp clsO).downloaded = false ∧
    (is_account_bad_cached cfg st account resp clsO).classified = false ∧
    ∀ (resp2 : HttpResp) (clsO2 : Except Unit (List ClsEntry)),
      (is_account_bad_cached cfg (is_account_bad_cached cfg st account resp clsO).state
        account resp2 clsO2).verdict = none ∧
      (is_account_bad_cached cfg (is_account_bad_cached cfg st account resp clsO).state
        account resp2 clsO2).bodyCalled = false ∧
      (is_account_bad_cached cfg (is_account_bad_cached cfg st account resp clsO).state
        account resp2 clsO2).downloaded = false ∧
      (is_account_bad_cached cfg (is_account_bad_cached cfg st account resp clsO).state
        account resp2 clsO2).classified = false := by
  have hrun : is_account_bad_run cfg account resp clsO = ⟨none, false, false⟩ := by
    unfold is_account_bad_run
    rw [hav]
    simp [hph]
  have h1 : is_account_bad_cached cfg st account resp clsO =
      ⟨none, lru_put st (cache_key_acct account) none, true, false, false⟩ := by
    rw [is_account_bad_cached_miss cfg st account resp clsO hmiss, hrun]
  have hstate : (is_account_bad_cached cfg st account resp clsO).state =
      lru_put st (cache_key_acct account) none := by rw [h1]
  refine ⟨by rw [h1], by rw [h1], by rw [h1], ?_⟩
  intro resp2 clsO2
  have hhit : (lru_get (lru_put st (cache_key_acct account) none)
      (cache_key_acct account)).1 = some none :=
    lru_get_put_hit st (cache_key_acct account) none
  have h2 := is_account_bad_cached_hit_fst cfg
    (lru_put st (cache_key_acct account) none) account resp2 clsO2 none hhit
  rw [hstate]
  exact ⟨h2.1, h2.2.1, h2.2.2.1, h2.2.2.2⟩

theorem C5_witness :
    (is_account_bad_cached cfgS ⟨512, []⟩ acctPlaceholder respOk clsBad).verdict =
      none :=
  (C5_placeholder_indeterminate_cached cfgS ⟨512, []⟩ acctPlaceholder respOk clsBad
    "https://social.example/missing.png" rfl (by decide) (by decide)).1

/-- C6: if constructing the Mastodon client or fetching the
authenticated identity raises, the startup block terminates the process
(the `except` only logs, but the subsequent unconditional `me.acct`
raises an uncaught `NameError`) instead of proceeding to listen for
events. -/
theorem C6_login_failure_terminates (clientO : Except Unit Unit)
    (meO : Except Unit Me) (h : clientO = .error () ∨ meO = .error ()) :
    startup clientO meO = .terminated := by
  rcases h with h | h
  · subst h
    rfl
  · subst h
    cases clientO with
    | error e => rfl
    | ok u => rfl

theorem C6_witness : startup (.error ()) (.ok ⟨"me"⟩) = .terminated :=
  C6_login_failure_terminates (.error ()) (.ok ⟨"me"⟩) (Or.inl rfl)

/-- C7: two consecutive judgments of the same account (hence the same
identity and avatar URL) against a verdict cache with room return the
same verdict; the second is a pure cache hit — no body call, no
download, no classifier — so the classifier runs at most once across
the two calls. -/
theorem C7_judge_cached_idempotent (cfg : Config) (st : LRUState (Option Bool))
    (account : Account) (resp : HttpResp) (clsO : Except Unit (List ClsEntry))
    (resp2 : HttpResp) (clsO2 : Except Unit (List ClsEntry))
    (hsz : 0 < st.maxsize) :
    (is_account_bad_cached cfg (is_account_bad_cached cfg st account resp clsO).state
      account resp2 clsO2).verdict =
      (is_account_bad_cached cfg st account resp clsO).verdict ∧
    (is_account_bad_cached cfg (is_account_bad_cached cfg st account resp clsO).state
      account resp2 clsO2).bodyCalled = false ∧
    (is_account_bad_cached cfg (is_account_bad_cached cfg st account resp clsO).state
      account resp2 clsO2).downloaded = false ∧
    (is_account_bad_cached cfg (is_account_bad_cached cfg st account resp clsO).state
      account resp2 clsO2).classified = false ∧
    (if (is_account_bad_cached cfg st account resp clsO).classified then 1 else 0) +
      (if (is_account_bad_cached cfg
        (is_account_bad_cached cfg st account resp clsO).state
        account resp2 clsO2).classified then 1 else 0) ≤ 1 := by
  cases hg : lru_get st (cache_key_acct account) with
  | mk fst snd =>
    cases fst with
    | some v =>
      have h1 := is_account_bad_cached_hit cfg st account resp clsO v snd hg
      have hsnd : (lru_get snd (cache_key_acct account)).1 = some v :=
        lru_get_snd_hit st (cache_key_acct account) v snd hg
      have hstate : (is_account_bad_cached cfg st account resp clsO).state = snd := by
        rw [h1]
      have h2 := is_account_bad_cached_hit_fst cfg snd account resp2 clsO2 v hsnd
      rw [hstate]
      have hc1 : (is_account_bad_cached cfg st account resp clsO).classified = false := by
        rw [h1]
      refine ⟨?_, h2.2.1, h2.2.2.1, h2.2.2.2, ?_⟩
      · rw [h2.1, h1]
      · rw [hc1, h2.2.2.2]
        simp
    | none =>
      have hfst : (lru_get st (cache_key_acct account)).1 = none := by rw [hg]
      have h1 := is_account_bad_cached_miss cfg st account resp clsO hfst
      have hstate : (is_account_bad_cached cfg st account resp clsO).state =
          lru_put st (cache_key_acct account)
            (is_account_bad_run cfg account resp clsO).verdict := by rw [h1]
      have hhit := lru_get_put_hit st (cache_key_acct account)
        (is_account_bad_run cfg account resp clsO).verdict
      have h2 := is_account_bad_cached_hit_fst cfg
        (lru_put st (cache_key_acct account)
          (is_account_bad_run cfg account resp clsO).verdict)
        account resp2 clsO2
        (is_account_bad_run cfg account resp clsO).verdict hhit
      rw [hstate]
      refine ⟨?_, h2.2.1, h2.2.2.1, h2.2.2.2, ?_⟩
      · rw [h2.1, h1]
      · rw [h2.2.2.2]
        cases hcl : (is_account_bad_cached cfg st account resp clsO).classified <;>
          simp [hcl]

theorem C7_witness :
    (is_account_bad_cached cfgS
      (is_account_bad_cached cfgS ⟨512, []⟩ acctA respOk clsBad).state
      acctA respOk clsBad).bodyCalled = false :=
  (C7_judge_cached_idempotent cfgS ⟨512, []⟩ acctA respOk clsBad respOk clsBad
    (by decide)).2.1

/-! ### Invariant lemmas for the concurrent system -/

theorem tinv_le_one (t : TState) : tinv t ≤ 1 := by
  cases t <;> simp [tinv]

theorem sysInv_init (k : CKey) : SysInv sys_init k := by
  unfold SysInv
  refine ⟨rfl, ?_, ?_, ?_⟩ <;> intro h <;>
    simp [sys_init, cache_has, tdone, List.find?] at h

theorem sysInv_swap (s : Sys) (k : CKey) (h : SysInv s k) : SysInv s.swap k := by
  obtain ⟨h1, h2, h3, h4⟩ := h
  exact ⟨by simpa [Sys.swap, Nat.add_comm] using h1, h2, h4, h3⟩

theorem sysInv_step_t1 (cfg : Config) (account : Account) (resp : HttpResp)
    (clsO : Except Unit (List ClsEntry))
    (hcls : (is_account_bad_run cfg account resp clsO).classified = true)
    (s : Sys) (h : SysInv s (cache_key_acct account)) :
    SysInv (sys_step cfg account resp clsO s true) (cache_key_acct account) := by
  obtain ⟨h1, h2, h3, h4⟩ := h
  rw [show sys_step cfg account resp clsO s true =
    ⟨(thread_step cfg account resp clsO s.cache s.t1).2.1,
     (thread_step cfg account resp clsO s.cache s.t1).1, s.t2,
     s.invocations + (thread_step cfg account resp clsO s.cache s.t1).2.2⟩ from rfl]
  cases ht : s.t1 with
  | start =>
    rw [ht] at h1 h3
    cases hg : lru_get s.cache (cache_key_acct account) with
    | mk fst snd =>
      cases fst with
      | some v =>
        have hstep : thread_step cfg account resp clsO s.cache TState.start =
            (TState.doneHit v, snd, 0) := by
          unfold thread_step
          rw [hg]
        rw [hstep]
        have hinv : 1 ≤ s.invocations :=
          h2 (cache_has_of_get_hit s.cache (cache_key_acct account) v snd hg)
        have hch2 : cache_has snd (cache_key_acct account) = true :=
          cache_has_get_hit_state s.cache (cache_key_acct account) v snd hg
        unfold SysInv
        simp only [tinv, tdone] at h1 ⊢
        exact ⟨by omega, fun _ => by omega, fun _ => by omega,
          fun hd => by have := h4 hd; omega⟩
      | none =>
        have hsnd := lru_get_miss_state s.cache (cache_key_acct account) snd hg
        subst hsnd
        have hstep : thread_step cfg account resp clsO s.cache TState.start =
            (TState.mid, s.cache, 0) := by
          unfold thread_step
          rw [hg]
        rw [hstep]
        unfold SysInv
        simp only [tinv, tdone] at h1 ⊢
        refine ⟨by omega, fun hc => by have := h2 hc; omega, ?_, ?_⟩
        · intro hd
          simp at hd
        · intro hd
          have := h4 hd
          omega
  | mid =>
    rw [ht] at h1 h3
    have hstep : thread_step cfg account resp clsO s.cache TState.mid =
        (TState.computed (is_account_bad_run cfg account resp clsO).verdict,
          s.cache, 1) := by
      simp [thread_step, hcls]
    rw [hstep]
    unfold SysInv
    simp only [tinv, tdone] at h1 ⊢
    refine ⟨by omega, fun _ => by omega, ?_, ?_⟩
    · intro hd
      simp at hd
    · intro hd
      have := h4 hd
      omega
  | computed v =>
    rw [ht] at h1 h3
    have hstep : thread_step cfg account resp clsO s.cache (TState.computed v) =
        (TState.doneRun v, lru_put s.cache (cache_key_acct account) v, 0) := rfl
    rw [hstep]
    unfold SysInv
    simp only [tinv, tdone] at h1 ⊢
    exact ⟨by omega, fun _ => by omega, fun _ => by omega,
      fun hd => by have := h4 hd; omega⟩
  | doneHit v =>
    rw [ht] at h1 h3
    have hstep : thread_step cfg account resp clsO s.cache (TState.doneHit v) =
        (TState.doneHit v, s.cache, 0) := rfl
    rw [hstep]
    have hinv : 1 ≤ s.invocations := h3 (by simp [tdone])
    unfold SysInv
    simp only [tinv, tdone] at h1 ⊢
    exact ⟨by omega, fun hc => by have := h2 hc; omega, fun _ => by omega,
      fun hd => by have := h4 hd; omega⟩
  | doneRun v =>
    rw [ht] at h1 h3
    have hstep : thread_step cfg account resp clsO s.cache (TState.doneRun v) =
        (TState.doneRun v, s.cache, 0) := rfl
    rw [hstep]
    unfold SysInv
    simp only [tinv, tdone] at h1 ⊢
    exact ⟨by omega, fun hc => by have := h2 hc; omega, fun _ => by omega,
      fun hd => by have := h4 hd; omega⟩

theorem sysInv_step (cfg : Config) (account : Account) (resp : HttpResp)
    (clsO : Except Unit (List ClsEntry))
    (hcls : (is_account_bad_run cfg account resp clsO).classified = true)
    (s : Sys) (who : Bool) (h : SysInv s (cache_key_acct account)) :
    SysInv (sys_step cfg account resp clsO s who) (cache_key_acct account) := by
  cases who with
  | true => exact sysInv_step_t1 cfg account resp clsO hcls s h
  | false =>
    have e : sys_step cfg account resp clsO s false =
        Sys.swap (sys_step cfg account resp clsO s.swap true) := rfl
    rw [e]
    exact sysInv_swap _ _
      (sysInv_step_t1 cfg account resp clsO hcls s.swap (sysInv_swap s _ h))

theorem sysInv_run (cfg : Config) (account : Account) (resp : HttpResp)
    (clsO : Except Unit (List ClsEntry))
    (hcls : (is_account_bad_run cfg account resp clsO).classified = true) :
    ∀ (sched : List Bool) (s : Sys), SysInv s (cache_key_acct account) →
      SysInv (sys_run cfg account resp clsO s sched) (cache_key_acct account) := by
  intro sched
  induction sched with
  | nil => exact fun s h => h
  | cons w ws ih =>
    intro s h
    exact ih (sys_step cfg account resp clsO s w)
      (sysInv_step cfg account resp clsO hcls s w h)

theorem sys_run_serial (cfg : Config) (account : Account) (resp : HttpResp)
    (clsO : Except Unit (List ClsEntry))
    (hcls : (is_account_bad_run cfg account resp clsO).classified = true) :
    sys_run cfg account resp clsO sys_init [true, true, true, false] =
      ⟨⟨512, [(cache_key_acct account,
          (is_account_bad_run cfg account resp clsO).verdict)]⟩,
       TState.doneRun (is_account_bad_run cfg account resp clsO).verdict,
       TState.doneHit (is_account_bad_run cfg account resp clsO).verdict, 1⟩ := by
  simp [sys_run, sys_step, sys_init, thread_step, lru_get, lru_put, hcls,
    List.find?]

/-- C8 counterexample: two concurrent judgments of the same
previously-uncached identity, interleaved check-check-run-run-store-
store as the unlocked `cachetools` wrapper permits, both complete and
the classifier is invoked twice — not exactly once as claimed. -/
theorem C8_counterexample :
    (sys_run cfgS acctA respOk clsBad sys_init
      [true, false, true, false, true, false]).invocations = 2 ∧
    tdone (sys_run cfgS acctA respOk clsBad sys_init
      [true, false, true, false, true, false]).t1 = true ∧
    tdone (sys_run cfgS acctA respOk clsBad sys_init
      [true, false, true, false, true, false]).t2 = true := by
  decide

/-- C8 (amended): the unlocked cache wrapper does not coalesce
concurrent misses: under any interleaving of two concurrent judgments
of the same previously-uncached identity the classifier is invoked at
most twice (up to once per judgment, never more), at least once when a
judgment has completed, and exactly once under a serial schedule where
one judgment finishes before the other starts (the second is then a
cache hit). -/
theorem C8_amended_no_coalescing (cfg : Config) (account : Account)
    (resp : HttpResp) (clsO : Except Unit (List ClsEntry))
    (hcls : (is_account_bad_run cfg account resp clsO).classified = true) :
    (∀ sched : List Bool,
      (sys_run cfg account resp clsO sys_init sched).invocations ≤ 2) ∧
    (∀ sched : List Bool,
      tdone (sys_run cfg account resp clsO sys_init sched).t1 = true →
      1 ≤ (sys_run cfg account resp clsO sys_init sched).invocations) ∧
    (sys_run cfg account resp clsO sys_init [true, true, true, false]).invocations
      = 1 ∧
    tdone (sys_run cfg account resp clsO sys_init [true, true, true, false]).t1
      = true ∧
    tdone (sys_run cfg account resp clsO sys_init [true, true, true, false]).t2
      = true := by
  have hrun : ∀ sched : List Bool,
      SysInv (sys_run cfg account resp clsO sys_init sched)
        (cache_key_acct account) :=
    fun sched => sysInv_run cfg account resp clsO hcls sched sys_init
      (sysInv_init (cache_key_acct account))
  refine ⟨?_, ?_, ?_, ?_, ?_⟩
  · intro sched
    obtain ⟨h1, h2, h3, h4⟩ := hrun sched
    have t1le := tinv_le_one (sys_run cfg account resp clsO sys_init sched).t1
    have t2le := tinv_le_one (sys_run cfg account resp clsO sys_init sched).t2
    omega
  · intro sched hd
    exact (hrun sched).2.2.1 hd
  · rw [sys_run_serial cfg account resp clsO hcls]
  · rw [sys_run_serial cfg account resp clsO hcls]
    rfl
  · rw [sys_run_serial cfg account resp clsO hcls]
    rfl

theorem C8_amended_witness :
    (sys_run cfgS acctA respOk clsBad sys_init
      [true, true, true, false]).invocations = 1 :=
  (C8_amended_no_coalescing cfgS acctA respOk clsBad (by decide)).2.2.1

end AvatarBlocker
